import Mathlib

/-!
Shallow embedding of the data-mesh core (pattern generator, mesh node,
mesh network, mesh observer) from the TypeScript sources, together with
theorems settling the specification claims.

Conventions of the embedding:
* JavaScript numbers appearing in the core are used only as non-negative
  integers (steps, seeds, intervals, digit values); they are modelled as `Nat`
  (the observer's success rate, a real-valued percentage, as `ℚ`).
* The opaque `data` payload of a message is modelled as `Nat`.
* `EventEmitter` side effects are modelled by returning the list of emitted
  events alongside the new state.
* `Date.now()` inside the observer is modelled as an explicit `now` argument.
* The memoization cache of `PatternGenerator` is pure memoization (the cached
  value is exactly what the recursion computes), so `computeValue` is modelled
  as the underlying recursion.
* The two recursions of the pattern generator that are not structural (digit
  sum by repeated division by 10, and repeated digit collapse) are written
  with an explicit fuel argument so that the kernel can evaluate them; the
  fuel `n` always suffices because each recursive call strictly decreases the
  argument, and the stability lemmas below show the value is fuel-independent
  in that regime.
-/

namespace DataMesh

/-- Fueled decimal digit sum: `digitSumAux fuel n` sums the base-10 digits of
`n`, recursing on `n / 10`; the fuel bounds the recursion depth. -/
def digitSumAux : Nat → Nat → Nat
  | _, 0 => 0
  | 0, _ + 1 => 0
  | fuel + 1, n + 1 => (n + 1) % 10 + digitSumAux fuel ((n + 1) / 10)

/-- Decimal digit sum, as computed by
`String(num).split('').reduce((acc, digit) => acc + parseInt(digit), 0)`
in `PatternGenerator.collapseDigits` (src/src/core/pattern.ts). -/
def digitSum (n : Nat) : Nat := digitSumAux n n

/-- Fueled repeated digit collapse: sum the digits, and while the sum still
exceeds 9, collapse the sum again. -/
def collapseDigitsAux : Nat → Nat → Nat
  | 0, n => digitSum n
  | fuel + 1, n => if 9 < digitSum n then collapseDigitsAux fuel (digitSum n) else digitSum n

/-- Embedding of `PatternGenerator.collapseDigits` (src/src/core/pattern.ts):
sum the decimal digits, and if the sum still exceeds 9, collapse again.
The fuel `n` always suffices (`collapseDigits_eq` below gives the source's
recurrence with the fuel eliminated). -/
def collapseDigits (n : Nat) : Nat := collapseDigitsAux n n

/-- Embedding of `PatternGenerator.computeValue` (src/src/core/pattern.ts),
parameterized by the generator's `seed` and `phaseResetInterval`.  At a step
with `step % phaseResetInterval == 0` the value resets to the seed; otherwise
it is the digit collapse of the previous value times the seed.  (At step 0 the
source's reset test `0 % phaseResetInterval === 0` holds for every positive
interval, so the embedding returns the seed there; for interval 0 the source
recursion does not terminate and the model is only used with interval > 0.) -/
def computeValue (seed phaseResetInterval : Nat) : Nat → Nat
  | 0 => seed
  | step + 1 =>
    if (step + 1) % phaseResetInterval = 0 then seed
    else collapseDigits (computeValue seed phaseResetInterval step * seed)

/-- Embedding of the `Message` shape (src/unnamed types module): sender id,
declared global step, declared pattern value and an opaque payload. -/
structure Message where
  senderId : String
  globalStep : Nat
  patternValue : Nat
  data : Nat
deriving DecidableEq, Repr

/-- Embedding of `NodeConfig` (nodeId plus the pattern configuration). -/
structure NodeConfig where
  nodeId : String
  seed : Nat
  phaseResetInterval : Nat
deriving DecidableEq, Repr

/-- State of a `MeshNode` (src/unnamed mesh-node module): its id, the
configuration of its owned `PatternGenerator`, and the global step counter. -/
structure NodeState where
  nodeId : String
  seed : Nat
  phaseResetInterval : Nat
  globalStep : Nat
deriving DecidableEq, Repr

/-- Events a `MeshNode` emits on its `EventEmitter`: `broadcast`, `message`,
`error` (carrying the error record's type tag, message and expected value)
and `sync`. -/
inductive NodeEvent where
  | broadcastEv (m : Message)
  | messageEv (m : Message)
  | errorEv (etype : String) (m : Message) (expected : Nat)
  | syncEv (step : Nat)
deriving DecidableEq, Repr

/-- The `MeshNode` constructor: node id from the config, a fresh generator
with the config's seed and interval, `globalStep = 0`. -/
def mkNode (cfg : NodeConfig) : NodeState :=
  { nodeId := cfg.nodeId, seed := cfg.seed,
    phaseResetInterval := cfg.phaseResetInterval, globalStep := 0 }

/-- Embedding of `MeshNode.sync`: adopt `targetStep` and emit a `sync` event
exactly when `targetStep` is strictly greater than the current step. -/
def sync (n : NodeState) (targetStep : Nat) : NodeState × List NodeEvent :=
  if n.globalStep < targetStep then
    ({ n with globalStep := targetStep }, [NodeEvent.syncEv targetStep])
  else
    (n, [])

/-- Embedding of `MeshNode.broadcast`: build the message from the current
step and the generator's value at it, emit the `broadcast` event, then
increment the step. -/
def broadcast (n : NodeState) (payload : Nat) : NodeState × Message :=
  let m : Message :=
    { senderId := n.nodeId, globalStep := n.globalStep,
      patternValue := computeValue n.seed n.phaseResetInterval n.globalStep,
      data := payload }
  ({ n with globalStep := n.globalStep + 1 }, m)

/-- Embedding of `MeshNode.receive`: recompute the expected pattern value for
the message's declared step; on disagreement emit a `pattern-mismatch` error
event and drop the message, otherwise sync to the declared step and emit a
`message` event. -/
def receive (n : NodeState) (m : Message) : NodeState × List NodeEvent :=
  let expected := computeValue n.seed n.phaseResetInterval m.globalStep
  if expected ≠ m.patternValue then
    (n, [NodeEvent.errorEv "pattern-mismatch" m expected])
  else
    ((sync n m.globalStep).1, (sync n m.globalStep).2 ++ [NodeEvent.messageEv m])

/-- One node-facing call, for stating step-monotonicity over call sequences. -/
inductive NodeOp where
  | broadcastOp (payload : Nat)
  | receiveOp (m : Message)
  | syncOp (targetStep : Nat)
deriving DecidableEq, Repr

/-- State change of a single node call (events and the built message are
projected away). -/
def applyOp (n : NodeState) : NodeOp → NodeState
  | NodeOp.broadcastOp payload => (broadcast n payload).1
  | NodeOp.receiveOp m => (receive n m).1
  | NodeOp.syncOp targetStep => (sync n targetStep).1

/-- State after a finite sequence of node calls. -/
def applyOps (n : NodeState) (ops : List NodeOp) : NodeState :=
  ops.foldl applyOp n

/-- State of a `MeshNetwork` (src/unnamed mesh-network module).  `nodes` is
the insertion-ordered registry map from node id to node; JS `Map` keys are
unique, which `setNode` below preserves.  `subscribed` records the node ids
whose `broadcast` events `createNode` wired to the network's routing — the
listener survives `removeNode`, which deletes the registry entry only. -/
structure MeshNetwork where
  nodes : List (String × NodeState)
  subscribed : List String
deriving DecidableEq, Repr

/-- The `MeshNetwork` constructor: empty registry. -/
def emptyNetwork : MeshNetwork := { nodes := [], subscribed := [] }

/-- JS `Map.set` on an association list: overwrite in place if the key is
present, else append. -/
def setNode : List (String × NodeState) → String → NodeState → List (String × NodeState)
  | [], k, v => [(k, v)]
  | (k', v') :: rest, k, v =>
    if k' = k then (k, v) :: rest else (k', v') :: setNode rest k v

/-- Embedding of `MeshNetwork.createNode`: construct the node from the
config as given (no validation is performed), subscribe to its broadcast
events, and register it under `config.nodeId`. -/
def createNode (net : MeshNetwork) (cfg : NodeConfig) : MeshNetwork × NodeState :=
  let node := mkNode cfg
  ({ nodes := setNode net.nodes cfg.nodeId node,
     subscribed := net.subscribed ++ [cfg.nodeId] }, node)

/-- Embedding of `MeshNetwork.removeNode`: delete the registry entry only;
the broadcast subscription made by `createNode` is not removed. -/
def removeNode (net : MeshNetwork) (nodeId : String) : MeshNetwork :=
  { nodes := net.nodes.filter (fun p => p.1 ≠ nodeId), subscribed := net.subscribed }

/-- Embedding of `MeshNetwork.getNode`. -/
def getNode (net : MeshNetwork) (nodeId : String) : Option NodeState :=
  (net.nodes.find? (fun p => p.1 = nodeId)).map Prod.snd

/-- Registry keys in iteration order. -/
def registryIds (nodes : List (String × NodeState)) : List String :=
  nodes.map Prod.fst

/-- The node ids on which the network's private `broadcast` invokes
`receive` for message `m`, in registry iteration order: every registered
entry whose key differs from `m.senderId`, once per `forEach` visit. -/
def routeTargets (nodes : List (String × NodeState)) (m : Message) : List String :=
  registryIds (nodes.filter (fun p => p.1 ≠ m.senderId))

/-- Registry after the network's private `broadcast` of `m`: every entry
whose key differs from `m.senderId` has been put through `receive`. -/
def routeStates (nodes : List (String × NodeState)) (m : Message) :
    List (String × NodeState) :=
  nodes.map (fun p => if p.1 ≠ m.senderId then (p.1, (receive p.2 m).1) else p)

/-- Node ids whose `receive` runs when node `x` calls `broadcast` while the
network holds registry `net`: the fan-out happens only through the listener
`createNode` installed on `x` (recorded in `subscribed`). -/
def fanout (net : MeshNetwork) (x : NodeState) (payload : Nat) : List String :=
  if x.nodeId ∈ net.subscribed then routeTargets net.nodes (broadcast x payload).2 else []

/-- Observer anomaly record (src/src/utils/performance-monitor.ts,
`MeshObserver.observe`): type tag, offending message, expected and received
values, and detection time. -/
structure Anomaly where
  atype : String
  message : Message
  expected : Nat
  received : Nat
  timestamp : Nat
deriving DecidableEq, Repr

/-- State of a `MeshObserver`: its own generator configuration plus the two
history logs. -/
structure ObserverState where
  seed : Nat
  phaseResetInterval : Nat
  observedMessages : List Message
  anomalies : List Anomaly
deriving DecidableEq, Repr

/-- Events a `MeshObserver` emits: `valid-message` and `anomaly`. -/
inductive ObserverEvent where
  | validMessageEv (m : Message)
  | anomalyEv (a : Anomaly)
deriving DecidableEq, Repr

/-- The `MeshObserver` constructor: fresh generator, empty histories. -/
def mkObserver (seed phaseResetInterval : Nat) : ObserverState :=
  { seed := seed, phaseResetInterval := phaseResetInterval,
    observedMessages := [], anomalies := [] }

/-- Embedding of `MeshObserver.observe` (`Date.now()` modelled as the
explicit `now` argument): on pattern mismatch append an anomaly record and
emit `anomaly`, else append to the valid log and emit `valid-message`. -/
def observe (o : ObserverState) (m : Message) (now : Nat) :
    ObserverState × List ObserverEvent :=
  let expected := computeValue o.seed o.phaseResetInterval m.globalStep
  if expected ≠ m.patternValue then
    let a : Anomaly :=
      { atype := "pattern-mismatch", message := m, expected := expected,
        received := m.patternValue, timestamp := now }
    ({ o with anomalies := o.anomalies ++ [a] }, [ObserverEvent.anomalyEv a])
  else
    ({ o with observedMessages := o.observedMessages ++ [m] },
     [ObserverEvent.validMessageEv m])

/-- Return shape of `MeshObserver.getStatistics`. -/
structure Statistics where
  totalObserved : Nat
  validMessages : Nat
  anomalies : Nat
  successRate : ℚ
deriving DecidableEq, Repr

/-- Embedding of `MeshObserver.getStatistics`: counts from the two logs and
`successRate = totalObserved > 0 ? validMessages / totalObserved * 100 : 0`. -/
def getStatistics (o : ObserverState) : Statistics :=
  let totalObserved := o.observedMessages.length + o.anomalies.length
  let validMessages := o.observedMessages.length
  let anomalies := o.anomalies.length
  { totalObserved := totalObserved, validMessages := validMessages,
    anomalies := anomalies,
    successRate :=
      if 0 < totalObserved then (validMessages : ℚ) / (totalObserved : ℚ) * 100 else 0 }

/-- Embedding of `MeshObserver.clearHistory`: empty both logs (the generator
cache, being pure memoization, has no semantic content to clear). -/
def clearHistory (o : ObserverState) : ObserverState :=
  { o with observedMessages := [], anomalies := [] }

/-- Demo configuration `node-a` with seed 7 and reset interval 100, as in the
repository's tests and demos. -/
def cfgA : NodeConfig := { nodeId := "node-a", seed := 7, phaseResetInterval := 100 }

/-- Demo configuration `node-b` with seed 7 and reset interval 100. -/
def cfgB : NodeConfig := { nodeId := "node-b", seed := 7, phaseResetInterval := 100 }

/-- Network after `createNode cfgA` on an empty network. -/
def netA : MeshNetwork := (createNode emptyNetwork cfgA).1

/-- The node returned by `createNode cfgA`. -/
def nodeA : NodeState := (createNode emptyNetwork cfgA).2

/-- Network after creating `node-a` then `node-b`. -/
def netAB : MeshNetwork := (createNode netA cfgB).1

/-- The node returned by `createNode cfgB` on `netA`. -/
def nodeB : NodeState := (createNode netA cfgB).2

theorem digitSumAux_zero (fuel : Nat) : digitSumAux fuel 0 = 0 := by
  cases fuel <;> rfl

theorem digitSumAux_stable :
    ∀ n fuel fuel', n ≤ fuel → n ≤ fuel' →
      digitSumAux fuel n = digitSumAux fuel' n := by
  intro n
  induction n using Nat.strong_induction_on with
  | _ n ih =>
    intro fuel fuel' hf hf'
    match n, fuel, fuel' with
    | 0, _, _ => rw [digitSumAux_zero, digitSumAux_zero]
    | m + 1, f + 1, f' + 1 =>
      show (m + 1) % 10 + digitSumAux f ((m + 1) / 10) =
           (m + 1) % 10 + digitSumAux f' ((m + 1) / 10)
      have hlt : (m + 1) / 10 < m + 1 := Nat.div_lt_self (Nat.succ_pos m) (by norm_num)
      rw [ih ((m + 1) / 10) hlt f f' (by omega) (by omega)]

/-- Recurrence of the digit sum for positive arguments. -/
theorem digitSum_rec (n : Nat) (h : 0 < n) :
    digitSum n = n % 10 + digitSum (n / 10) := by
  match n, h with
  | m + 1, _ =>
    show digitSumAux (m + 1) (m + 1) = (m + 1) % 10 + digitSum ((m + 1) / 10)
    have hlt : (m + 1) / 10 < m + 1 := Nat.div_lt_self (Nat.succ_pos m) (by norm_num)
    show (m + 1) % 10 + digitSumAux m ((m + 1) / 10) = _
    rw [digitSumAux_stable ((m + 1) / 10) m ((m + 1) / 10) (by omega) (le_refl _)]
    rfl

/-- The fueled digit sum agrees with Mathlib's list of base-10 digits. -/
theorem digitSum_eq_digits_sum (n : Nat) : digitSum n = (Nat.digits 10 n).sum := by
  induction n using Nat.strong_induction_on with
  | _ n ih =>
    rcases Nat.eq_zero_or_pos n with h0 | h0
    · subst h0; simp [digitSum, digitSumAux]
    · rw [digitSum_rec n h0, Nat.digits_def' (by norm_num : (1:Nat) < 10) h0]
      have hlt : n / 10 < n := Nat.div_lt_self h0 (by norm_num)
      rw [ih (n / 10) hlt]
      simp

theorem digitSum_le_self (n : Nat) : digitSum n ≤ n := by
  induction n using Nat.strong_induction_on with
  | _ n ih =>
    rcases Nat.eq_zero_or_pos n with h0 | h0
    · subst h0; exact Nat.le_refl 0
    · rw [digitSum_rec n h0]
      have hlt : n / 10 < n := Nat.div_lt_self h0 (by norm_num)
      have h1 := ih (n / 10) hlt
      have h2 : n % 10 + 10 * (n / 10) = n := Nat.mod_add_div n 10
      omega

theorem digitSum_lt_self (n : Nat) (h : 10 ≤ n) : digitSum n < n := by
  have h0 : 0 < n := by omega
  rw [digitSum_rec n h0]
  have h1 : digitSum (n / 10) ≤ n / 10 := digitSum_le_self (n / 10)
  have h2 : n % 10 + 10 * (n / 10) = n := Nat.mod_add_div n 10
  have h3 : 1 ≤ n / 10 := by omega
  omega

theorem digitSum_pos (n : Nat) (h : 0 < n) : 0 < digitSum n := by
  induction n using Nat.strong_induction_on with
  | _ n ih =>
    rw [digitSum_rec n h]
    rcases Nat.eq_zero_or_pos (n % 10) with hm | hm
    · have h2 : n % 10 + 10 * (n / 10) = n := Nat.mod_add_div n 10
      have hd : 0 < n / 10 := by omega
      have := ih (n / 10) (Nat.div_lt_self h (by norm_num)) hd
      omega
    · omega

theorem digitSum_modEq (n : Nat) : n % 9 = digitSum n % 9 := by
  rw [digitSum_eq_digits_sum]
  exact Nat.modEq_nine_digits_sum n

theorem collapseDigitsAux_stable :
    ∀ n fuel fuel', n ≤ fuel → n ≤ fuel' →
      collapseDigitsAux fuel n = collapseDigitsAux fuel' n := by
  intro n
  induction n using Nat.strong_induction_on with
  | _ n ih =>
    intro fuel fuel' hf hf'
    rcases Nat.lt_or_ge 9 (digitSum n) with hgt | hle
    · have hn10 : 10 ≤ n := by
        have := digitSum_le_self n
        omega
      have hlt : digitSum n < n := digitSum_lt_self n hn10
      match fuel, fuel', (by omega : 1 ≤ fuel), (by omega : 1 ≤ fuel') with
      | f + 1, f' + 1, _, _ =>
        show (if 9 < digitSum n then collapseDigitsAux f (digitSum n) else digitSum n) =
             (if 9 < digitSum n then collapseDigitsAux f' (digitSum n) else digitSum n)
        rw [if_pos hgt, if_pos hgt]
        exact ih (digitSum n) hlt f f' (by omega) (by omega)
    · match fuel, fuel' with
      | 0, 0 => rfl
      | 0, f' + 1 =>
        show digitSum n = (if 9 < digitSum n then _ else digitSum n)
        rw [if_neg (by omega)]
      | f + 1, 0 =>
        show (if 9 < digitSum n then _ else digitSum n) = digitSum n
        rw [if_neg (by omega)]
      | f + 1, f' + 1 =>
        show (if 9 < digitSum n then _ else digitSum n) =
             (if 9 < digitSum n then _ else digitSum n)
        rw [if_neg (by omega), if_neg (by omega)]

/-- Source recurrence of `collapseDigits`, with the fuel eliminated. -/
theorem collapseDigits_eq (n : Nat) :
    collapseDigits n = if 9 < digitSum n then collapseDigits (digitSum n) else digitSum n := by
  rcases Nat.lt_or_ge 9 (digitSum n) with hgt | hle
  · rw [if_pos hgt]
    have hn10 : 10 ≤ n := by
      have := digitSum_le_self n
      omega
    show collapseDigitsAux n n = collapseDigits (digitSum n)
    match n, (by omega : 1 ≤ n) with
    | m + 1, _ =>
      show (if 9 < digitSum (m + 1) then collapseDigitsAux m (digitSum (m + 1))
            else digitSum (m + 1)) = collapseDigits (digitSum (m + 1))
      rw [if_pos hgt]
      exact collapseDigitsAux_stable (digitSum (m + 1)) m (digitSum (m + 1))
        (by have := digitSum_lt_self (m + 1) hn10; omega) (le_refl _)
  · rw [if_neg (by omega)]
    match n with
    | 0 => rfl
    | m + 1 =>
      show (if 9 < digitSum (m + 1) then _ else digitSum (m + 1)) = digitSum (m + 1)
      rw [if_neg (by omega)]

theorem collapseDigits_le_nine (n : Nat) : collapseDigits n ≤ 9 := by
  induction n using Nat.strong_induction_on with
  | _ n ih =>
    rw [collapseDigits_eq]
    split
    · next h =>
      have h1 : digitSum n ≤ n := digitSum_le_self n
      exact ih (digitSum n) (digitSum_lt_self n (by omega))
    · next h => omega

theorem collapseDigits_pos (n : Nat) (h : 0 < n) : 0 < collapseDigits n := by
  induction n using Nat.strong_induction_on with
  | _ n ih =>
    rw [collapseDigits_eq]
    split
    · next hgt =>
      have h1 : digitSum n ≤ n := digitSum_le_self n
      exact ih (digitSum n) (digitSum_lt_self n (by omega)) (by omega)
    · next hgt => exact digitSum_pos n h

theorem collapseDigits_modEq (n : Nat) : n % 9 = collapseDigits n % 9 := by
  induction n using Nat.strong_induction_on with
  | _ n ih =>
    rw [collapseDigits_eq]
    split
    · next hgt =>
      have h1 : digitSum n ≤ n := digitSum_le_self n
      have h2 := ih (digitSum n) (digitSum_lt_self n (by omega))
      have h3 := digitSum_modEq n
      omega
    · next hgt => exact digitSum_modEq n

/-- Closed form of digit collapse: for `n ≥ 1` it is the digital root. -/
theorem collapseDigits_eq_digital_root (n : Nat) (h : 1 ≤ n) :
    collapseDigits n = 1 + (n - 1) % 9 := by
  have h1 : collapseDigits n ≤ 9 := collapseDigits_le_nine n
  have h2 : 0 < collapseDigits n := collapseDigits_pos n h
  have h3 : n % 9 = collapseDigits n % 9 := collapseDigits_modEq n
  omega

theorem sync_step_le (n : NodeState) (t : Nat) :
    n.globalStep ≤ ((sync n t).1).globalStep := by
  unfold sync
  split
  · next h => simpa using Nat.le_of_lt h
  · exact Nat.le_refl _

theorem receive_step_le (n : NodeState) (m : Message) :
    n.globalStep ≤ ((receive n m).1).globalStep := by
  unfold receive
  dsimp only
  split
  · exact Nat.le_refl _
  · exact sync_step_le n m.globalStep

theorem applyOp_step_le (n : NodeState) (op : NodeOp) :
    n.globalStep ≤ (applyOp n op).globalStep := by
  cases op with
  | broadcastOp payload => exact Nat.le_succ _
  | receiveOp m => exact receive_step_le n m
  | syncOp t => exact sync_step_le n t

theorem applyOps_step_le (n : NodeState) (ops : List NodeOp) :
    n.globalStep ≤ (applyOps n ops).globalStep := by
  induction ops generalizing n with
  | nil => exact Nat.le_refl _
  | cons op ops ih =>
    exact Nat.le_trans (applyOp_step_le n op) (ih (applyOp n op))

/-- C5: for every Node, `globalStep` is monotonically non-decreasing: after
any single `broadcast`, `receive` or `sync` call — and hence after any finite
sequence of such calls — `globalStep` is ≥ its value before the call. -/
theorem globalStep_monotone (n : NodeState) (op : NodeOp) (ops : List NodeOp) :
    n.globalStep ≤ (applyOp n op).globalStep ∧
    n.globalStep ≤ (applyOps n ops).globalStep :=
  ⟨applyOp_step_le n op, applyOps_step_le n ops⟩

/-- C4: on a pattern mismatch (the node's own generator disagrees with the
message's declared value at the message's step), `receive` emits exactly one
`pattern-mismatch` error event carrying the message and the expected value,
emits no `message` event, and leaves the node's state — in particular
`globalStep` — unchanged. -/
theorem receive_mismatch_drops (n : NodeState) (m : Message)
    (h : computeValue n.seed n.phaseResetInterval m.globalStep ≠ m.patternValue) :
    receive n m =
      (n, [NodeEvent.errorEv "pattern-mismatch" m
            (computeValue n.seed n.phaseResetInterval m.globalStep)]) := by
  unfold receive
  rw [if_pos h]

theorem receive_mismatch_drops_witness :
    receive (mkNode { nodeId := "test-node", seed := 7, phaseResetInterval := 100 })
        { senderId := "other-node", globalStep := 0, patternValue := 9, data := 0 } =
      (mkNode { nodeId := "test-node", seed := 7, phaseResetInterval := 100 },
       [NodeEvent.errorEv "pattern-mismatch"
          { senderId := "other-node", globalStep := 0, patternValue := 9, data := 0 } 7]) :=
  receive_mismatch_drops _ _ (by decide)

/-- C6: for every generator with a single-digit seed (1–9) and positive reset
interval and every step, the computed value lies between 0 and 9 inclusive. -/
theorem computeValue_le_nine (seed r step : Nat)
    (h1 : 1 ≤ seed) (h2 : seed ≤ 9) (h3 : 0 < r) :
    0 ≤ computeValue seed r step ∧ computeValue seed r step ≤ 9 := by
  refine ⟨Nat.zero_le _, ?_⟩
  induction step with
  | zero => exact h2
  | succ k ih =>
    show (if (k + 1) % r = 0 then seed
          else collapseDigits (computeValue seed r k * seed)) ≤ 9
    split
    · exact h2
    · exact collapseDigits_le_nine _

theorem computeValue_le_nine_witness :
    0 ≤ computeValue 7 100 5 ∧ computeValue 7 100 5 ≤ 9 :=
  computeValue_le_nine 7 100 5 (by decide) (by decide) (by decide)

/-- C8: a stale replay passes validation: when a message's declared step is at
most the node's current step and its declared value matches the node's own
generator at that step, `receive` emits exactly one `message` event accepting
the message (and no `sync` event) and leaves the node's state — in particular
`globalStep` — exactly unchanged. -/
theorem receive_stale_replay_accepted (n : NodeState) (m : Message)
    (hstep : m.globalStep ≤ n.globalStep)
    (hval : m.patternValue = computeValue n.seed n.phaseResetInterval m.globalStep) :
    receive n m = (n, [NodeEvent.messageEv m]) := by
  unfold receive
  rw [if_neg (by omega)]
  unfold sync
  rw [if_neg (by omega)]
  rfl

theorem receive_stale_replay_accepted_witness :
    receive { nodeId := "n", seed := 7, phaseResetInterval := 100, globalStep := 5 }
        { senderId := "p", globalStep := 3, patternValue := 7, data := 0 } =
      ({ nodeId := "n", seed := 7, phaseResetInterval := 100, globalStep := 5 },
       [NodeEvent.messageEv { senderId := "p", globalStep := 3, patternValue := 7, data := 0 }]) :=
  receive_stale_replay_accepted _ _ (by decide) (by decide)

/-- C10: digit collapse equals the digital root — for every `n ≥ 1`,
`collapseDigits n = 1 + (n - 1) % 9` — and consequently `computeValue` at a
non-reset step equals `1 + (previousValue * seed - 1) % 9` whenever
`previousValue * seed ≥ 1`. -/
theorem collapseDigits_digital_root :
    (∀ n : Nat, 1 ≤ n → collapseDigits n = 1 + (n - 1) % 9) ∧
    (∀ seed r step : Nat, 0 < r → (step + 1) % r ≠ 0 →
      1 ≤ computeValue seed r step * seed →
      computeValue seed r (step + 1) = 1 + (computeValue seed r step * seed - 1) % 9) := by
  constructor
  · exact collapseDigits_eq_digital_root
  · intro seed r step hr hmod hpos
    show (if (step + 1) % r = 0 then seed
          else collapseDigits (computeValue seed r step * seed)) = _
    rw [if_neg hmod]
    exact collapseDigits_eq_digital_root _ hpos

theorem collapseDigits_digital_root_witness :
    collapseDigits 49 = 1 + (49 - 1) % 9 ∧
    computeValue 7 100 1 = 1 + (computeValue 7 100 0 * 7 - 1) % 9 :=
  ⟨collapseDigits_digital_root.1 49 (by decide),
   collapseDigits_digital_root.2 7 100 0 (by decide) (by decide) (by decide)⟩

theorem registryIds_filter_ne (nodes : List (String × NodeState)) (s : String) :
    registryIds (nodes.filter (fun p => p.1 ≠ s)) =
      (registryIds nodes).filter (fun k => k ≠ s) := by
  induction nodes with
  | nil => rfl
  | cons p rest ih =>
    by_cases h : p.1 = s
    · simp [registryIds, List.filter_cons, h] at ih ⊢
      exact ih
    · simp [registryIds, List.filter_cons, h] at ih ⊢
      exact ih

theorem routeTargets_eq (nodes : List (String × NodeState)) (m : Message) :
    routeTargets nodes m = (registryIds nodes).filter (fun k => k ≠ m.senderId) :=
  registryIds_filter_ne nodes m.senderId

theorem broadcast_senderId (n : NodeState) (payload : Nat) :
    ((broadcast n payload).2).senderId = n.nodeId := rfl

theorem count_filter_ne_self (l : List String) (s : String) :
    List.count s (l.filter (fun k => k ≠ s)) = 0 := by
  rw [List.count_eq_zero]
  intro hmem
  have := List.of_mem_filter hmem
  simp at this

theorem count_filter_ne_other (l : List String) (s id : String) (h : id ≠ s) :
    List.count id (l.filter (fun k => k ≠ s)) = List.count id l :=
  List.count_filter (by simpa using h)

/-- C7: in a network whose registered node ids are distinct, a broadcast by a
registered node `x` (whose broadcast events `createNode` wired to the
network) invokes `receive` exactly once on every other registered node, and
never on `x` itself, all within the synchronous fan-out of the call. -/
theorem broadcast_fanout_exactly_once (net : MeshNetwork) (x : NodeState) (payload : Nat)
    (hnodup : (registryIds net.nodes).Nodup)
    (hsub : x.nodeId ∈ net.subscribed)
    (hreg : x.nodeId ∈ registryIds net.nodes) :
    List.count x.nodeId (fanout net x payload) = 0 ∧
    ∀ id ∈ registryIds net.nodes, id ≠ x.nodeId →
      List.count id (fanout net x payload) = 1 := by
  have hfan : fanout net x payload =
      (registryIds net.nodes).filter (fun k => k ≠ x.nodeId) := by
    unfold fanout
    rw [if_pos hsub, routeTargets_eq, broadcast_senderId]
  constructor
  · rw [hfan]
    exact count_filter_ne_self _ _
  · intro id hid hne
    rw [hfan, count_filter_ne_other _ _ _ hne]
    exact List.count_eq_one_of_mem hnodup hid

theorem broadcast_fanout_exactly_once_witness :
    List.count nodeA.nodeId (fanout netAB nodeA 0) = 0 ∧
    ∀ id ∈ registryIds netAB.nodes, id ≠ nodeA.nodeId →
      List.count id (fanout netAB nodeA 0) = 1 :=
  broadcast_fanout_exactly_once netAB nodeA 0 (by decide) (by decide) (by decide)

/-- C9: `removeNode` deletes the registry entry only and does not undo the
broadcast subscription `createNode` installed, so if the removed node `x`
subsequently calls `broadcast`, every node still registered in the network
still receives that message exactly once. -/
theorem removeNode_keeps_subscription (net : MeshNetwork) (x : NodeState) (payload : Nat)
    (hnodup : (registryIds net.nodes).Nodup)
    (hsub : x.nodeId ∈ net.subscribed) :
    x.nodeId ∈ (removeNode net x.nodeId).subscribed ∧
    ∀ id ∈ registryIds (removeNode net x.nodeId).nodes,
      List.count id (fanout (removeNode net x.nodeId) x payload) = 1 := by
  constructor
  · exact hsub
  · intro id hid
    have hkeys : registryIds (removeNode net x.nodeId).nodes =
        (registryIds net.nodes).filter (fun k => k ≠ x.nodeId) :=
      registryIds_filter_ne net.nodes x.nodeId
    rw [hkeys] at hid
    have hne : id ≠ x.nodeId := by
      have := List.of_mem_filter hid
      simpa using this
    have hmem : id ∈ registryIds net.nodes := List.mem_of_mem_filter hid
    have hfan : fanout (removeNode net x.nodeId) x payload =
        ((registryIds net.nodes).filter (fun k => k ≠ x.nodeId)).filter
          (fun k => k ≠ x.nodeId) := by
      unfold fanout
      rw [show (removeNode net x.nodeId).subscribed = net.subscribed from rfl,
        if_pos hsub, routeTargets_eq, broadcast_senderId, hkeys]
    rw [hfan, count_filter_ne_other _ _ _ hne, count_filter_ne_other _ _ _ hne]
    exact List.count_eq_one_of_mem hnodup hmem

theorem removeNode_keeps_subscription_witness :
    nodeA.nodeId ∈ (removeNode netAB nodeA.nodeId).subscribed ∧
    ∀ id ∈ registryIds (removeNode netAB nodeA.nodeId).nodes,
      List.count id (fanout (removeNode netAB nodeA.nodeId) nodeA 0) = 1 :=
  removeNode_keeps_subscription netAB nodeA 0 (by decide) (by decide)

/-- C1 counterexample: immediately after construction `totalObserved = 0`, and
`getStatistics` reports `successRate = 0`, not `100` — the source computes
`totalObserved > 0 ? (validMessages / totalObserved) * 100 : 0`. -/
theorem getStatistics_fresh_not_hundred :
    (getStatistics (mkObserver 7 100)).totalObserved = 0 ∧
    (getStatistics (mkObserver 7 100)).successRate ≠ 100 := by
  refine ⟨rfl, ?_⟩
  norm_num [getStatistics, mkObserver]

/-- C1 (amended): for every Observer, `getStatistics()` returns
`successRate = 0` when `totalObserved = 0` (immediately after construction or
after `clearHistory` with no messages observed since). -/
theorem getStatistics_empty_success_rate_zero (o : ObserverState)
    (h : (getStatistics o).totalObserved = 0) :
    (getStatistics o).successRate = 0 ∧
    (getStatistics (clearHistory o)).totalObserved = 0 ∧
    (getStatistics (clearHistory o)).successRate = 0 := by
  have h' : o.observedMessages.length + o.anomalies.length = 0 := h
  refine ⟨?_, rfl, ?_⟩
  · show (if 0 < o.observedMessages.length + o.anomalies.length then
        ((o.observedMessages.length : ℚ) /
          ((o.observedMessages.length + o.anomalies.length : Nat) : ℚ)) * 100
      else 0) = 0
    rw [if_neg (by omega)]
  · rfl

theorem getStatistics_empty_success_rate_zero_witness :
    (getStatistics (mkObserver 7 100)).successRate = 0 ∧
    (getStatistics (clearHistory (mkObserver 7 100))).totalObserved = 0 ∧
    (getStatistics (clearHistory (mkObserver 7 100))).successRate = 0 :=
  getStatistics_empty_success_rate_zero (mkObserver 7 100) (by decide)

/-- C2 counterexample: the configuration with empty `nodeId` and
`phaseResetInterval = 0` is invalid by the claim, yet `createNode` raises no
configuration error: it constructs the node and registers it in the network. -/
theorem createNode_invalid_config_registers :
    ((createNode emptyNetwork
        { nodeId := "", seed := 7, phaseResetInterval := 0 }).1).nodes =
      [("", mkNode { nodeId := "", seed := 7, phaseResetInterval := 0 })] ∧
    (createNode emptyNetwork { nodeId := "", seed := 7, phaseResetInterval := 0 }).2 =
      mkNode { nodeId := "", seed := 7, phaseResetInterval := 0 } :=
  ⟨rfl, rfl⟩

theorem find?_setNode (nodes : List (String × NodeState)) (k : String) (v : NodeState) :
    (setNode nodes k v).find? (fun p => p.1 = k) = some (k, v) := by
  induction nodes with
  | nil => simp [setNode]
  | cons p rest ih =>
    by_cases h : p.1 = k
    · simp [setNode, h]
    · simp [setNode, h, ih]

/-- C2 (amended): neither `Network.createNode` nor the Sequence Generator
constructor validates its configuration: for every config — including
`phaseResetInterval ≤ 0` or an empty `nodeId` — `createNode` silently
constructs the node exactly as configured, registers it under `nodeId` and
subscribes it, never raising a configuration error (the `validateNodeConfig`
helper exists in the repository but is never invoked on this path). -/
theorem createNode_never_validates (net : MeshNetwork) (cfg : NodeConfig) :
    (createNode net cfg).2 = mkNode cfg ∧
    getNode (createNode net cfg).1 cfg.nodeId = some (mkNode cfg) ∧
    cfg.nodeId ∈ ((createNode net cfg).1).subscribed := by
  refine ⟨rfl, ?_, by simp [createNode]⟩
  show ((setNode net.nodes cfg.nodeId (mkNode cfg)).find?
      (fun p => p.1 = cfg.nodeId)).map Prod.snd = some (mkNode cfg)
  rw [find?_setNode]
  rfl

/-- C3 counterexample: in the network holding the two fresh identical nodes
`node-a` and `node-b`, after `node-a` broadcasts at its step 0 the fan-out
reaches exactly `node-b`, but `node-b`'s `globalStep` after `receive` is 0 —
not ≥ 1 as claimed — because `sync(0)` does not exceed its current step. -/
theorem receive_first_broadcast_step_stays_zero :
    fanout netAB nodeA 0 = ["node-b"] ∧
    ((receive nodeB (broadcast nodeA 0).2).1).globalStep = 0 ∧
    ¬ 1 ≤ ((receive nodeB (broadcast nodeA 0).2).1).globalStep := by
  decide

/-- C3 (amended): in a Network holding two fresh Nodes A and B with identical
seed and reset interval, when A calls `broadcast` at its step 0, B's `receive`
is invoked with the resulting Message exactly once, B accepts it — its
`onMessage` callback is invoked exactly once with that Message — and B's
`globalStep` remains 0 (the accompanying `sync(0)` is a no-op, since the
declared step 0 is not greater than B's current step). -/
theorem first_broadcast_delivered_once (cA cB : NodeConfig) (payload : Nat)
    (hseed : cA.seed = cB.seed)
    (hint : cA.phaseResetInterval = cB.phaseResetInterval)
    (hid : cA.nodeId ≠ cB.nodeId) :
    fanout (createNode (createNode emptyNetwork cA).1 cB).1
      (createNode emptyNetwork cA).2 payload = [cB.nodeId] ∧
    ((receive (createNode (createNode emptyNetwork cA).1 cB).2
      (broadcast (createNode emptyNetwork cA).2 payload).2).1).globalStep = 0 ∧
    (receive (createNode (createNode emptyNetwork cA).1 cB).2
      (broadcast (createNode emptyNetwork cA).2 payload).2).2 =
      [NodeEvent.messageEv (broadcast (createNode emptyNetwork cA).2 payload).2] := by
  refine ⟨?_, ?_, ?_⟩
  · unfold fanout
    rw [if_pos (by simp [createNode, emptyNetwork, mkNode])]
    rw [routeTargets_eq, broadcast_senderId]
    show ((registryIds (setNode (setNode [] cA.nodeId (mkNode cA)) cB.nodeId (mkNode cB))).filter
      (fun k => k ≠ (mkNode cA).nodeId)) = [cB.nodeId]
    simp [setNode, Ne.symm hid, registryIds, List.filter, hid, mkNode]
  · unfold receive
    rw [if_neg (by simp [createNode, mkNode, broadcast, computeValue, hseed])]
    unfold sync
    rw [if_neg (by simp [createNode, mkNode, broadcast])]
    rfl
  · unfold receive
    rw [if_neg (by simp [createNode, mkNode, broadcast, computeValue, hseed])]
    unfold sync
    rw [if_neg (by simp [createNode, mkNode, broadcast])]
    rfl

theorem first_broadcast_delivered_once_witness :
    fanout netAB nodeA 0 = [cfgB.nodeId] ∧
    ((receive nodeB (broadcast nodeA 0).2).1).globalStep = 0 ∧
    (receive nodeB (broadcast nodeA 0).2).2 =
      [NodeEvent.messageEv (broadcast nodeA 0).2] :=
  first_broadcast_delivered_once cfgA cfgB 0 rfl rfl (by decide)

end DataMesh
